import Mathlib

/-!
# frizbee: container image reference replacement (`pkg/replacer/image`)

A shallow embedding of `image.go` (and of `utils.go`, whose `GetImageDigestFromRef`
and `shouldExclude` are textually the same functions as the ones in `image.go`).

* Go strings are Lean `String`s; the `strings` functions the package calls are
  defined on the underlying character lists. The separators the package searches for
  (`@`, `:`, `/`) and its two prefixes are ASCII, so on UTF-8 text splitting by character
  and splitting by byte give the same fragments.
* The collaborators that live outside the package are parameters:
  `name.ParseReference` and `cli.UserAgent` in `Env`, one answer of `remote.Get`
  per call in `Remote`.
* The reference cache is shared mutable state: it is passed in and returned.
  Every call also returns the list of cache and registry operations it performed,
  in order, so that "no remote query" is a statement about that list.
-/

namespace Frizbee

/-! ## The `strings` functions used by the package -/

/-- Go `strings.HasPrefix`. -/
def HasPrefix (s pre : String) : Bool :=
  pre.data.isPrefixOf s.data

/-- Go `strings.TrimPrefix`: `s` without the leading `pre`, or `s` itself. -/
def TrimPrefix (s pre : String) : String :=
  if HasPrefix s pre then ⟨s.data.drop pre.data.length⟩ else s

/-- Go `strings.Contains` for a one-byte substring (`"@"` and `":"` in the source). -/
def Contains (s : String) (sep : Char) : Bool :=
  s.data.elem sep

/-- The fragments of a character list between the occurrences of `sep`. -/
def splitChars (sep : Char) : List Char → List (List Char)
  | [] => [[]]
  | c :: cs =>
    if c = sep then [] :: splitChars sep cs
    else
      match splitChars sep cs with
      | [] => [[c]]
      | f :: fs => (c :: f) :: fs

/-- Go `strings.Split` for a one-byte separator (`"@"`, `":"` and `"/"` in the source):
one fragment more than there are separators, the empty string giving one empty fragment. -/
def Split (s : String) (sep : Char) : List String :=
  (splitChars sep s.data).map String.mk

/-! ## Errors -/

/-- Go `error` values as this package builds and receives them. -/
inductive Error where
  /-- A package-level sentinel variable, identified by its name. -/
  | sentinel (name : String)
  /-- The value of `errors.New(msg)`, or of `fmt.Errorf` without a `%w` verb. -/
  | new (msg : String)
  /-- The value of `fmt.Errorf(format, ..., inner)` with one `%w` verb: `msg` is the format
  with its `%s` arguments filled in, `inner` the wrapped error. -/
  | wrap (msg : String) (inner : Error)
  /-- An error produced by go-containerregistry (`name.ParseReference`, `remote.Get`),
  returned to the caller as it is. -/
  | library (e : String)
deriving DecidableEq, Repr

/-- Modelled from the spec: the sentinel `interfaces.ErrReferenceSkipped` (`ErrSkipped`,
"not an error, but nothing to rewrite"), declared in `pkg/interfaces`. -/
def ErrReferenceSkipped : Error := Error.sentinel "ErrReferenceSkipped"

/-- Go `errors.Is`: `target` is the error itself or is reached by unwrapping. -/
def Error.Is : Error → Error → Bool
  | Error.wrap msg inner, target =>
    decide (Error.wrap msg inner = target) || inner.Is target
  | e, target => decide (e = target)

/-! ## Data -/

/-- Modelled from the spec: `interfaces.EntityRef` (the spec's ResolvedReference), declared in
`pkg/interfaces`; the five string fields are the ones the package reads and writes, and a
field that a composite literal leaves out is the empty string. -/
structure EntityRef where
  Name : String := ""
  Ref : String := ""
  Typ : String := ""
  Tag : String := ""
  Prefix : String := ""
deriving DecidableEq, Repr

/-- What the source reads from a parsed `name.Reference`: `ref.Context().Name()` and
`ref.Identifier()`. -/
structure Reference where
  contextName : String
  identifier : String
deriving DecidableEq, Repr

/-- The `remote.Option`s the source builds. -/
inductive RemoteOption where
  | WithContext (ctx : Nat)
  | WithUserAgent (ua : String)
  | WithAuthFromKeychain
  | WithPlatform (os architecture : String)
deriving DecidableEq, Repr

/-- The collaborators outside the package that do not change during a run. -/
structure Env where
  /-- The constant `cli.UserAgent`. -/
  UserAgent : String
  /-- The function `name.ParseReference`: a parsed reference or the library's error. -/
  ParseReference : String → Except String Reference

/-- One answer of `remote.Get`: the descriptor's digest string or the library's error. -/
abbrev Remote := Reference → List RemoteOption → Except String String

/-- Modelled from the spec: `store.RefCacher`, declared in `pkg/utils/store`: a mapping from
a reference string to a digest string with `Load(key) → (digest, found)` and
`Store(key, digest)`, without eviction. -/
structure RefCacher where
  entries : String → Option String

/-- Modelled from the spec: `Load(key) → (digest, found)` of `store.RefCacher`. -/
def RefCacher.Load (c : RefCacher) (key : String) : Option String :=
  c.entries key

/-- Modelled from the spec: `Store(key, digest)` of `store.RefCacher`. -/
def RefCacher.Store (c : RefCacher) (key value : String) : RefCacher :=
  ⟨fun k => if k = key then some value else c.entries k⟩

/-- The empty cache. -/
def RefCacher.empty : RefCacher := ⟨fun _ => none⟩

/-- The operations on shared state that a call performs. -/
inductive Event where
  | cacheLoad (key : String)
  | cacheStore (key value : String)
  | remoteGet (ref : Reference) (opts : List RemoteOption)
deriving DecidableEq, Repr

/-- An event is a query to the remote registry. -/
def Event.isRemote : Event → Bool
  | Event.remoteGet _ _ => true
  | _ => false

/-- An event reads or writes the cache. -/
def Event.isCache : Event → Bool
  | Event.cacheLoad _ => true
  | Event.cacheStore _ _ => true
  | _ => false

/-- What a call leaves behind: the returned `(*EntityRef, error)` pair, the cache (`none` is
the nil cache) and the operations performed, in order. -/
structure Outcome where
  result : Except Error EntityRef
  cache : Option RefCacher
  trace : List Event

/-- The number of `remote.Get` calls in a trace. -/
def remoteQueries (t : List Event) : Nat :=
  (t.filter Event.isRemote).length

/-- The field `cfg.Platform` of `config.Config`. -/
structure Config where
  Platform : String

/-- The `Parser` struct. -/
structure Parser where
  regex : String
  cache : Option RefCacher

/-! ## Constants -/

def prefixFROM : String := "FROM "

def prefixImage : String := "image: "

def ReferenceType : String := "container"

/-! ## Functions of `image.go` -/

/-- The function `shouldExclude`. -/
def shouldExclude (ref : String) : Bool :=
  ref == "scratch"

/-- The method `Parser.ConvertToEntityRef`. The variable `sep` is `none` for the empty string,
which the source leaves when the reference has neither separator. -/
def ConvertToEntityRef (reference : String) : Except Error EntityRef :=
  let reference := TrimPrefix reference prefixImage
  let reference := TrimPrefix reference prefixFROM
  let sep : Option Char :=
    if Contains reference '@' then some '@'
    else if Contains reference ':' then some ':'
    else none
  match sep with
  | some c =>
    let frags := Split reference c
    if frags.length ≠ 2 then
      Except.error (Error.new ("invalid container reference: " ++ reference))
    else
      Except.ok { Name := frags.getD 0 "", Ref := frags.getD 1 "", Typ := ReferenceType }
  | none =>
    let frags := [reference, "latest"]
    Except.ok { Name := frags.getD 0 "", Ref := frags.getD 1 "", Typ := ReferenceType }

/-- The tail of `GetImageDigestFromRef`, from the comparison of the digest with the
reference's identifier on. -/
def compareDigest (imageRef : String) (ref : Reference) (digest : String) :
    Except Error EntityRef :=
  if digest = ref.identifier then
    Except.error
      (Error.wrap ("image already referenced by digest: " ++ imageRef ++ " %w")
        ErrReferenceSkipped)
  else
    Except.ok { Name := ref.contextName, Ref := digest, Typ := ReferenceType,
                Tag := ref.identifier }

/-- The function `GetImageDigestFromRef` (the same text in `image.go` and `utils.go`). -/
def GetImageDigestFromRef (env : Env) (remote : Remote) (ctx : Nat)
    (imageRef platform : String) (cache : Option RefCacher) : Outcome :=
  match env.ParseReference imageRef with
  | Except.error e => ⟨Except.error (Error.library e), cache, []⟩
  | Except.ok ref =>
    let opts := [RemoteOption.WithContext ctx, RemoteOption.WithUserAgent env.UserAgent,
      RemoteOption.WithAuthFromKeychain]
    let withPlatform : Except Error (List RemoteOption) :=
      if platform ≠ "" then
        let platformSplit := Split platform '/'
        if platformSplit.length ≠ 2 then
          Except.error (Error.new "platform must be in the format os/arch")
        else
          Except.ok (opts ++
            [RemoteOption.WithPlatform (platformSplit.getD 0 "") (platformSplit.getD 1 "")])
      else Except.ok opts
    match withPlatform with
    | Except.error err => ⟨Except.error err, cache, []⟩
    | Except.ok opts =>
      match cache with
      | some c =>
        match c.Load imageRef with
        | some d =>
          ⟨compareDigest imageRef ref d, some c, [Event.cacheLoad imageRef]⟩
        | none =>
          match remote ref opts with
          | Except.error e =>
            ⟨Except.error (Error.library e), some c,
              [Event.cacheLoad imageRef, Event.remoteGet ref opts]⟩
          | Except.ok digest =>
            ⟨compareDigest imageRef ref digest, some (c.Store imageRef digest),
              [Event.cacheLoad imageRef, Event.remoteGet ref opts,
               Event.cacheStore imageRef digest]⟩
      | none =>
        match remote ref opts with
        | Except.error e =>
          ⟨Except.error (Error.library e), none, [Event.remoteGet ref opts]⟩
        | Except.ok digest =>
          ⟨compareDigest imageRef ref digest, none, [Event.remoteGet ref opts]⟩

/-- The method `Parser.Replace`; its unused `interfaces.REST` argument is left out. The first
step yields the trimmed text with the flags `hasFROMPrefix` and `hasImagePrefix`, or the
error of the early return. -/
def Replace (env : Env) (remote : Remote) (p : Parser) (ctx : Nat) (matchedLine : String)
    (cfg : Config) : Outcome :=
  let trimmed : Except Error (String × Bool × Bool) :=
    if HasPrefix matchedLine prefixFROM then
      let matchedLine := TrimPrefix matchedLine prefixFROM
      if shouldExclude matchedLine then
        Except.error
          (Error.wrap ("image reference " ++ matchedLine ++ " should be excluded - %w")
            ErrReferenceSkipped)
      else Except.ok (matchedLine, true, false)
    else if HasPrefix matchedLine prefixImage then
      Except.ok (TrimPrefix matchedLine prefixImage, false, true)
    else Except.ok (matchedLine, false, false)
  match trimmed with
  | Except.error err => ⟨Except.error err, p.cache, []⟩
  | Except.ok (matchedLine, hasFROMPrefix, hasImagePrefix) =>
    let o := GetImageDigestFromRef env remote ctx matchedLine cfg.Platform p.cache
    match o.result with
    | Except.error err => ⟨Except.error err, o.cache, o.trace⟩
    | Except.ok imageRefWithDigest =>
      let imageRefWithDigest :=
        if hasFROMPrefix then
          { imageRefWithDigest with Prefix := prefixFROM ++ imageRefWithDigest.Prefix }
        else if hasImagePrefix then
          { imageRefWithDigest with Prefix := prefixImage ++ imageRefWithDigest.Prefix }
        else imageRefWithDigest
      ⟨Except.ok imageRefWithDigest, o.cache, o.trace⟩

/-! ## Vocabulary of the statements and sample collaborators -/

/-- The last step of `Parser.Replace` with the literal `pre` as the prefix to add back: an
error of `GetImageDigestFromRef` is returned as it is, a result gets `pre` in front of its
Prefix. -/
def addPrefixBack (pre : String) (o : Outcome) : Outcome :=
  match o.result with
  | Except.error e => ⟨Except.error e, o.cache, o.trace⟩
  | Except.ok e => ⟨Except.ok { e with Prefix := pre ++ e.Prefix }, o.cache, o.trace⟩

/-- The options `GetImageDigestFromRef` hands to `remote.Get` once the platform check has
passed. -/
def remoteOptions (env : Env) (ctx : Nat) (platform : String) : List RemoteOption :=
  if platform ≠ "" then
    [RemoteOption.WithContext ctx, RemoteOption.WithUserAgent env.UserAgent,
      RemoteOption.WithAuthFromKeychain,
      RemoteOption.WithPlatform ((Split platform '/').getD 0 "") ((Split platform '/').getD 1 "")]
  else
    [RemoteOption.WithContext ctx, RemoteOption.WithUserAgent env.UserAgent,
      RemoteOption.WithAuthFromKeychain]

/-- The platform strings that pass the check of `GetImageDigestFromRef`: the empty string and
the strings with exactly one `/`. -/
def validPlatform (platform : String) : Prop :=
  platform = "" ∨ platform.data.count '/' = 1

instance (platform : String) : Decidable (validPlatform platform) := by
  unfold validPlatform; infer_instance

/-- The reference `ConvertToEntityRef` goes on to split: its argument after the two
`strings.TrimPrefix` calls that open the method. -/
def trimmedReference (reference : String) : String :=
  TrimPrefix (TrimPrefix reference prefixImage) prefixFROM

/-- The text `Parser.Replace` hands to `GetImageDigestFromRef`. -/
def strippedLine (matchedLine : String) : String :=
  if HasPrefix matchedLine prefixFROM then TrimPrefix matchedLine prefixFROM
  else if HasPrefix matchedLine prefixImage then TrimPrefix matchedLine prefixImage
  else matchedLine

/-- The matched text is the excluded base image: `FROM scratch`. -/
def excluded (matchedLine : String) : Bool :=
  HasPrefix matchedLine prefixFROM && shouldExclude (TrimPrefix matchedLine prefixFROM)

/-- A stand-in for `name.ParseReference` in closed examples: a table of three references of
the repository `nginx`; every other string, among them a quoted one, is rejected. -/
def sampleParseReference (s : String) : Except String Reference :=
  if s = "nginx" then Except.ok ⟨"index.docker.io/library/nginx", "latest"⟩
  else if s = "nginx:1.21" then Except.ok ⟨"index.docker.io/library/nginx", "1.21"⟩
  else if s = "nginx@sha256:abc" then Except.ok ⟨"index.docker.io/library/nginx", "sha256:abc"⟩
  else Except.error ("could not parse reference: " ++ s)

/-- The environment of the closed examples. -/
def sampleEnv : Env := ⟨"frizbee", sampleParseReference⟩

/-- A registry of the closed examples: every image has the digest `sha256:abc`. -/
def sampleRemote : Remote := fun _ _ => Except.ok "sha256:abc"

/-- A registry of the closed examples that answers every query with an error. -/
def failingRemote : Remote := fun _ _ => Except.error "registry unreachable"

/-! ## Lemmas -/

theorem splitChars_ne_nil (sep : Char) (l : List Char) : splitChars sep l ≠ [] := by
  cases l with
  | nil => simp [splitChars]
  | cons c cs =>
    by_cases h : c = sep
    · simp [splitChars, h]
    · cases hs : splitChars sep cs <;> simp [splitChars, h, hs]

theorem splitChars_length (sep : Char) (l : List Char) :
    (splitChars sep l).length = l.count sep + 1 := by
  induction l with
  | nil => rfl
  | cons c cs ih =>
    by_cases h : c = sep
    · subst h
      simp [splitChars, ih]
    · cases hs : splitChars sep cs with
      | nil => exact absurd hs (splitChars_ne_nil sep cs)
      | cons f fs =>
        rw [hs] at ih
        simp [splitChars, h, hs, List.count_cons] at ih ⊢
        exact ih

theorem splitChars_of_not_mem (sep : Char) (l : List Char) (h : sep ∉ l) :
    splitChars sep l = [l] := by
  induction l with
  | nil => rfl
  | cons c cs ih =>
    have hc : c ≠ sep := fun e => h (by simp [e])
    have hcs : sep ∉ cs := fun e => h (by simp [e])
    simp [splitChars, hc, ih hcs]

theorem splitChars_count_one (sep : Char) (l : List Char) (h : l.count sep = 1) :
    ∃ a b, splitChars sep l = [a, b] ∧ l = a ++ sep :: b ∧ sep ∉ a ∧ sep ∉ b := by
  induction l with
  | nil => simp at h
  | cons c cs ih =>
    by_cases hc : c = sep
    · subst hc
      have h0 : cs.count c = 0 := by simpa using h
      have hn : c ∉ cs := List.count_eq_zero.mp h0
      exact ⟨[], cs, by simp [splitChars, splitChars_of_not_mem c cs hn], by simp, by simp, hn⟩
    · have h1 : cs.count sep = 1 := by
        rw [List.count_cons] at h
        simpa [hc] using h
      obtain ⟨a, b, hs, hl, ha, hb⟩ := ih h1
      refine ⟨c :: a, b, by simp [splitChars, hc, hs], by simp [hl], ?_, hb⟩
      simp [ha, Ne.symm hc]

theorem Contains_iff (s : String) (c : Char) : Contains s c = true ↔ c ∈ s.data := by
  simp [Contains]

theorem Split_length (s : String) (c : Char) : (Split s c).length = s.data.count c + 1 := by
  simp [Split, splitChars_length]

theorem Split_of_not_mem (s : String) (c : Char) (h : c ∉ s.data) : Split s c = [s] := by
  simp [Split, splitChars_of_not_mem c s.data h]

theorem Split_count_one (s : String) (c : Char) (h : s.data.count c = 1) :
    ∃ a b : String, Split s c = [a, b] ∧ s = a ++ String.singleton c ++ b ∧
      c ∉ a.data ∧ c ∉ b.data := by
  obtain ⟨a, b, hs, hl, ha, hb⟩ := splitChars_count_one c s.data h
  refine ⟨⟨a⟩, ⟨b⟩, by simp [Split, hs], ?_, ha, hb⟩
  apply String.ext
  simp [hl, String.singleton]

/-- A trimmed reference with neither separator is the Name, with Ref `latest`. -/
theorem ConvertToEntityRef_no_sep (reference : String)
    (h1 : '@' ∉ (TrimPrefix (TrimPrefix reference prefixImage) prefixFROM).data)
    (h2 : ':' ∉ (TrimPrefix (TrimPrefix reference prefixImage) prefixFROM).data) :
    ConvertToEntityRef reference = Except.ok
      { Name := TrimPrefix (TrimPrefix reference prefixImage) prefixFROM, Ref := "latest",
        Typ := "container" } := by
  simp [ConvertToEntityRef, Contains, h1, h2, ReferenceType]

/-- A trimmed reference with a separator is split on it, `@` first, and must give exactly
two fragments, that is, hold the separator exactly once. -/
theorem ConvertToEntityRef_sep (reference : String) (c : Char)
    (hc : (c = '@' ∧ '@' ∈ (TrimPrefix (TrimPrefix reference prefixImage) prefixFROM).data) ∨
      (c = ':' ∧ '@' ∉ (TrimPrefix (TrimPrefix reference prefixImage) prefixFROM).data ∧
        ':' ∈ (TrimPrefix (TrimPrefix reference prefixImage) prefixFROM).data)) :
    ConvertToEntityRef reference =
      if (TrimPrefix (TrimPrefix reference prefixImage) prefixFROM).data.count c ≠ 1 then
        Except.error (Error.new ("invalid container reference: " ++
          TrimPrefix (TrimPrefix reference prefixImage) prefixFROM))
      else
        Except.ok
          { Name := (Split (TrimPrefix (TrimPrefix reference prefixImage) prefixFROM) c).getD 0 "",
            Ref := (Split (TrimPrefix (TrimPrefix reference prefixImage) prefixFROM) c).getD 1 "",
            Typ := "container" } := by
  rcases hc with ⟨rfl, h⟩ | ⟨rfl, h1, h2⟩
  · simp [ConvertToEntityRef, Contains, h, ReferenceType, Split_length]
  · simp [ConvertToEntityRef, Contains, h1, h2, ReferenceType, Split_length]

theorem HasPrefix_singleton_of_not_mem (s : String) (c : Char) (h : c ∉ s.data) :
    HasPrefix s (String.singleton c) = false := by
  cases s with
  | mk l =>
    cases l with
    | nil => rfl
    | cons x xs =>
      have hx : c ≠ x := by
        intro hx; apply h; simp [hx]
      simp [HasPrefix, String.singleton, List.isPrefixOf, hx]

theorem HasPrefix_singleton_append (a b : String) (c : Char) (ha : c ∉ a.data) :
    (a = "" ↔ HasPrefix (a ++ String.singleton c ++ b) (String.singleton c) = true) := by
  cases a with
  | mk l =>
    cases l with
    | nil => simp [HasPrefix, String.singleton, List.isPrefixOf]
    | cons x xs =>
      have hx : c ≠ x := by
        intro hx; apply ha; simp [hx]
      simp [HasPrefix, String.singleton, List.isPrefixOf, hx]
      intro h0
      have := congrArg String.data h0
      simp at this

theorem GetImageDigestFromRef_parse_error (env : Env) (remote : Remote) (ctx : Nat)
    (imageRef platform : String) (cache : Option RefCacher) (e : String)
    (hp : env.ParseReference imageRef = Except.error e) :
    GetImageDigestFromRef env remote ctx imageRef platform cache =
      ⟨Except.error (Error.library e), cache, []⟩ := by
  simp [GetImageDigestFromRef, hp]

theorem GetImageDigestFromRef_platform_error (env : Env) (remote : Remote) (ctx : Nat)
    (imageRef platform : String) (cache : Option RefCacher) (ref : Reference)
    (hp : env.ParseReference imageRef = Except.ok ref) (hv : ¬ validPlatform platform) :
    GetImageDigestFromRef env remote ctx imageRef platform cache =
      ⟨Except.error (Error.new "platform must be in the format os/arch"), cache, []⟩ := by
  simp only [validPlatform, not_or] at hv
  simp [GetImageDigestFromRef, hp, Split_length, hv.1, hv.2]

theorem GetImageDigestFromRef_valid (env : Env) (remote : Remote) (ctx : Nat)
    (imageRef platform : String) (cache : Option RefCacher) (ref : Reference)
    (hp : env.ParseReference imageRef = Except.ok ref) (hv : validPlatform platform) :
    GetImageDigestFromRef env remote ctx imageRef platform cache =
      match cache with
      | some c =>
        match c.Load imageRef with
        | some d => ⟨compareDigest imageRef ref d, some c, [Event.cacheLoad imageRef]⟩
        | none =>
          match remote ref (remoteOptions env ctx platform) with
          | Except.error e =>
            ⟨Except.error (Error.library e), some c,
              [Event.cacheLoad imageRef, Event.remoteGet ref (remoteOptions env ctx platform)]⟩
          | Except.ok digest =>
            ⟨compareDigest imageRef ref digest, some (c.Store imageRef digest),
              [Event.cacheLoad imageRef, Event.remoteGet ref (remoteOptions env ctx platform),
               Event.cacheStore imageRef digest]⟩
      | none =>
        match remote ref (remoteOptions env ctx platform) with
        | Except.error e =>
          ⟨Except.error (Error.library e), none,
            [Event.remoteGet ref (remoteOptions env ctx platform)]⟩
        | Except.ok digest =>
          ⟨compareDigest imageRef ref digest, none,
            [Event.remoteGet ref (remoteOptions env ctx platform)]⟩ := by
  unfold GetImageDigestFromRef
  simp only [hp, remoteOptions]
  by_cases h0 : platform = ""
  · simp [h0]
  · have h1 : platform.data.count '/' = 1 := hv.resolve_left h0
    simp [h0, Split_length, h1]

theorem addPrefixBack_cache (pre : String) (o : Outcome) : (addPrefixBack pre o).cache = o.cache := by
  unfold addPrefixBack; split <;> rfl

theorem addPrefixBack_trace (pre : String) (o : Outcome) : (addPrefixBack pre o).trace = o.trace := by
  unfold addPrefixBack; split <;> rfl

theorem addPrefixBack_ok (pre : String) (o : Outcome) (e : EntityRef) :
    (addPrefixBack pre o).result = Except.ok e ↔
      ∃ g, o.result = Except.ok g ∧ e = { g with Prefix := pre ++ g.Prefix } := by
  unfold addPrefixBack
  split
  · rename_i err he
    simp [he]
  · rename_i g hg
    simp only [hg, Except.ok.injEq]
    constructor
    · intro h; exact ⟨g, rfl, h.symm⟩
    · rintro ⟨g', h1, h2⟩; subst h1; exact h2.symm

theorem addPrefixBack_error (pre : String) (o : Outcome) (err : Error) :
    (addPrefixBack pre o).result = Except.error err ↔ o.result = Except.error err := by
  unfold addPrefixBack
  split
  · rename_i err' he
    simp [he]
  · rename_i g hg
    simp [hg]

theorem HasPrefix_image_not_FROM (s : String) (h : HasPrefix s prefixImage = true) :
    HasPrefix s prefixFROM = false := by
  cases s with
  | mk l =>
    cases l with
    | nil => simp [HasPrefix, prefixImage, List.isPrefixOf] at h
    | cons x xs =>
      simp [HasPrefix, prefixImage, List.isPrefixOf] at h
      obtain ⟨hx, _⟩ := h
      subst hx
      simp [HasPrefix, prefixFROM, List.isPrefixOf]

theorem HasPrefix_append (pre s : String) : HasPrefix (pre ++ s) pre = true := by
  simp [HasPrefix]

theorem compareDigest_ok (imageRef : String) (ref : Reference) (d : String) (g : EntityRef)
    (h : compareDigest imageRef ref d = Except.ok g) :
    g = { Name := ref.contextName, Ref := d, Typ := ReferenceType, Tag := ref.identifier } ∧
      d ≠ ref.identifier := by
  unfold compareDigest at h
  split at h
  · cases h
  · rename_i hne
    cases h
    exact ⟨rfl, hne⟩

/-- Every successful result of `GetImageDigestFromRef` is built by `compareDigest`. -/
theorem GetImageDigestFromRef_ok (env : Env) (remote : Remote) (ctx : Nat)
    (imageRef platform : String) (cache : Option RefCacher) (g : EntityRef)
    (h : (GetImageDigestFromRef env remote ctx imageRef platform cache).result = Except.ok g) :
    ∃ ref d, env.ParseReference imageRef = Except.ok ref ∧ validPlatform platform ∧
      compareDigest imageRef ref d = Except.ok g := by
  cases hp : env.ParseReference imageRef with
  | error e =>
    rw [GetImageDigestFromRef_parse_error env remote ctx imageRef platform cache e hp] at h
    cases h
  | ok ref =>
    by_cases hv : validPlatform platform
    · rw [GetImageDigestFromRef_valid env remote ctx imageRef platform cache ref hp hv] at h
      refine ⟨ref, ?_⟩
      cases cache with
      | none =>
        simp only at h
        split at h
        · cases h
        · exact ⟨_, rfl, hv, h⟩
      | some c =>
        simp only at h
        split at h
        · exact ⟨_, rfl, hv, h⟩
        · split at h
          · cases h
          · exact ⟨_, rfl, hv, h⟩
    · rw [GetImageDigestFromRef_platform_error env remote ctx imageRef platform cache ref hp hv] at h
      cases h

theorem Replace_eq (env : Env) (remote : Remote) (p : Parser) (ctx : Nat) (matchedLine : String)
    (cfg : Config) :
    Replace env remote p ctx matchedLine cfg =
      if excluded matchedLine = true then
        ⟨Except.error
          (Error.wrap ("image reference " ++ strippedLine matchedLine ++ " should be excluded - %w")
            ErrReferenceSkipped), p.cache, []⟩
      else if HasPrefix matchedLine prefixFROM = true then
        addPrefixBack prefixFROM
          (GetImageDigestFromRef env remote ctx (strippedLine matchedLine) cfg.Platform p.cache)
      else if HasPrefix matchedLine prefixImage = true then
        addPrefixBack prefixImage
          (GetImageDigestFromRef env remote ctx (strippedLine matchedLine) cfg.Platform p.cache)
      else
        GetImageDigestFromRef env remote ctx (strippedLine matchedLine) cfg.Platform p.cache := by
  have hid : ∀ o : Outcome,
      (match o.result with
        | Except.error err => (⟨Except.error err, o.cache, o.trace⟩ : Outcome)
        | Except.ok e => ⟨Except.ok e, o.cache, o.trace⟩) = o := by
    intro o
    cases o with
    | mk r c t => cases r <;> rfl
  unfold Replace excluded strippedLine
  by_cases h1 : HasPrefix matchedLine prefixFROM = true
  · by_cases h2 : shouldExclude (TrimPrefix matchedLine prefixFROM) = true
    · simp [h1, h2]
    · simp [h1, h2, addPrefixBack]
  · by_cases h2 : HasPrefix matchedLine prefixImage = true
    · simp [h1, h2, addPrefixBack]
    · simp [h1, h2, hid]

/-- On a matched text that is not excluded, `Parser.Replace` is `GetImageDigestFromRef` on the
stripped text, up to the Prefix of a successful result. -/
theorem Replace_not_excluded (env : Env) (remote : Remote) (p : Parser) (ctx : Nat)
    (matchedLine : String) (cfg : Config) (hx : excluded matchedLine = false) :
    (Replace env remote p ctx matchedLine cfg).trace =
        (GetImageDigestFromRef env remote ctx (strippedLine matchedLine) cfg.Platform
          p.cache).trace ∧
      (Replace env remote p ctx matchedLine cfg).cache =
        (GetImageDigestFromRef env remote ctx (strippedLine matchedLine) cfg.Platform
          p.cache).cache ∧
      (∀ err, (Replace env remote p ctx matchedLine cfg).result = Except.error err ↔
        (GetImageDigestFromRef env remote ctx (strippedLine matchedLine) cfg.Platform
          p.cache).result = Except.error err) ∧
      (∀ e, (Replace env remote p ctx matchedLine cfg).result = Except.ok e →
        ∃ g pre, (GetImageDigestFromRef env remote ctx (strippedLine matchedLine) cfg.Platform
            p.cache).result = Except.ok g ∧ e = { g with Prefix := pre ++ g.Prefix }) := by
  rw [Replace_eq]
  simp only [hx, Bool.false_eq_true, if_false]
  by_cases h1 : HasPrefix matchedLine prefixFROM = true
  · simp only [h1, if_true]
    refine ⟨addPrefixBack_trace _ _, addPrefixBack_cache _ _, fun err => addPrefixBack_error _ _ err,
      ?_⟩
    intro e he
    obtain ⟨g, hg, hgg⟩ := (addPrefixBack_ok _ _ _).mp he
    exact ⟨g, _, hg, hgg⟩
  · by_cases h2 : HasPrefix matchedLine prefixImage = true
    · simp only [h1, h2, if_true, if_false]
      refine ⟨addPrefixBack_trace _ _, addPrefixBack_cache _ _,
        fun err => addPrefixBack_error _ _ err, ?_⟩
      intro e he
      obtain ⟨g, hg, hgg⟩ := (addPrefixBack_ok _ _ _).mp he
      exact ⟨g, _, hg, hgg⟩
    · simp only [h1, h2, if_false]
      refine ⟨rfl, rfl, fun _ => Iff.rfl, ?_⟩
      intro e he
      refine ⟨e, "", he, ?_⟩
      cases e
      simp

theorem wrap_skipped_Is (msg : String) :
    (Error.wrap msg ErrReferenceSkipped).Is ErrReferenceSkipped = true := by
  simp [Error.Is, ErrReferenceSkipped]

/-- What a call on a non-nil cache does after the reference parsed and the platform passed:
a hit, a miss with a failed query, or a miss with an answered query. -/
theorem GetImageDigestFromRef_cached_cases (env : Env) (remote : Remote) (ctx : Nat)
    (imageRef platform : String) (c : RefCacher) (ref : Reference)
    (hp : env.ParseReference imageRef = Except.ok ref) (hv : validPlatform platform) :
    (∃ d, c.Load imageRef = some d ∧
      GetImageDigestFromRef env remote ctx imageRef platform (some c) =
        ⟨compareDigest imageRef ref d, some c, [Event.cacheLoad imageRef]⟩) ∨
    (∃ e, c.Load imageRef = none ∧
      remote ref (remoteOptions env ctx platform) = Except.error e ∧
      GetImageDigestFromRef env remote ctx imageRef platform (some c) =
        ⟨Except.error (Error.library e), some c,
          [Event.cacheLoad imageRef, Event.remoteGet ref (remoteOptions env ctx platform)]⟩) ∨
    (∃ d, c.Load imageRef = none ∧
      remote ref (remoteOptions env ctx platform) = Except.ok d ∧
      GetImageDigestFromRef env remote ctx imageRef platform (some c) =
        ⟨compareDigest imageRef ref d, some (c.Store imageRef d),
          [Event.cacheLoad imageRef, Event.remoteGet ref (remoteOptions env ctx platform),
           Event.cacheStore imageRef d]⟩) := by
  rw [GetImageDigestFromRef_valid env remote ctx imageRef platform (some c) ref hp hv]
  cases hl : c.Load imageRef with
  | some d => exact Or.inl ⟨d, rfl, by simp only [hl]⟩
  | none =>
    cases hr : remote ref (remoteOptions env ctx platform) with
    | error e => exact Or.inr (Or.inl ⟨e, rfl, rfl, by simp only [hl, hr]⟩)
    | ok d => exact Or.inr (Or.inr ⟨d, rfl, rfl, by simp only [hl, hr]⟩)

/-- The same for the nil cache: the registry is always queried. -/
theorem GetImageDigestFromRef_nil_cases (env : Env) (remote : Remote) (ctx : Nat)
    (imageRef platform : String) (ref : Reference)
    (hp : env.ParseReference imageRef = Except.ok ref) (hv : validPlatform platform) :
    (∃ e, remote ref (remoteOptions env ctx platform) = Except.error e ∧
      GetImageDigestFromRef env remote ctx imageRef platform none =
        ⟨Except.error (Error.library e), none,
          [Event.remoteGet ref (remoteOptions env ctx platform)]⟩) ∨
    (∃ d, remote ref (remoteOptions env ctx platform) = Except.ok d ∧
      GetImageDigestFromRef env remote ctx imageRef platform none =
        ⟨compareDigest imageRef ref d, none,
          [Event.remoteGet ref (remoteOptions env ctx platform)]⟩) := by
  rw [GetImageDigestFromRef_valid env remote ctx imageRef platform none ref hp hv]
  cases hr : remote ref (remoteOptions env ctx platform) with
  | error e => exact Or.inl ⟨e, rfl, by simp only [hr]⟩
  | ok d => exact Or.inr ⟨d, rfl, by simp only [hr]⟩

theorem Load_Store_same (c : RefCacher) (k v : String) : (c.Store k v).Load k = some v := by
  simp [RefCacher.Load, RefCacher.Store]

theorem Load_Store_other (c : RefCacher) (k v k' : String) (h : k' ≠ k) :
    (c.Store k v).Load k' = c.Load k' := by
  simp [RefCacher.Load, RefCacher.Store, h]

theorem compareDigest_eq (imageRef : String) (ref : Reference) :
    compareDigest imageRef ref ref.identifier =
      Except.error (Error.wrap ("image already referenced by digest: " ++ imageRef ++ " %w")
        ErrReferenceSkipped) := by
  simp [compareDigest]

theorem compareDigest_ne (imageRef : String) (ref : Reference) (d : String)
    (h : d ≠ ref.identifier) :
    compareDigest imageRef ref d =
      Except.ok { Name := ref.contextName, Ref := d, Typ := ReferenceType,
                  Tag := ref.identifier } := by
  simp [compareDigest, h]

/-- The digest a call obtained, from the cache or from the registry, is the one its result is
built from. -/
theorem GetImageDigestFromRef_result_of_obtained (env : Env) (remote : Remote) (ctx : Nat)
    (imageRef platform : String) (cache : Option RefCacher) (ref : Reference) (d : String)
    (hp : env.ParseReference imageRef = Except.ok ref) (hv : validPlatform platform)
    (ho : (∃ c, cache = some c ∧ c.Load imageRef = some d) ∨
      (∃ opts, Event.remoteGet ref opts ∈
          (GetImageDigestFromRef env remote ctx imageRef platform cache).trace ∧
        remote ref opts = Except.ok d)) :
    (GetImageDigestFromRef env remote ctx imageRef platform cache).result =
      compareDigest imageRef ref d := by
  cases cache with
  | none =>
    rcases ho with ⟨c, hc, _⟩ | ⟨opts, hq, hd⟩
    · cases hc
    · rcases GetImageDigestFromRef_nil_cases env remote ctx imageRef platform ref hp hv with
        ⟨e, hr, h1⟩ | ⟨d', hr, h1⟩
      · rw [h1] at hq
        simp at hq
        rw [hq, hr] at hd
        cases hd
      · rw [h1] at hq
        simp at hq
        rw [hq, hr] at hd
        cases hd
        rw [h1]
  | some c =>
    rcases GetImageDigestFromRef_cached_cases env remote ctx imageRef platform c ref hp hv with
      ⟨d', hl, h1⟩ | ⟨e, hl, hr, h1⟩ | ⟨d', hl, hr, h1⟩
    · rcases ho with ⟨c', hc, hl'⟩ | ⟨opts, hq, hd⟩
      · cases hc
        rw [hl] at hl'
        cases hl'
        rw [h1]
      · rw [h1] at hq
        simp at hq
    · rcases ho with ⟨c', hc, hl'⟩ | ⟨opts, hq, hd⟩
      · cases hc
        rw [hl] at hl'
        cases hl'
      · rw [h1] at hq
        simp at hq
        rw [hq, hr] at hd
        cases hd
    · rcases ho with ⟨c', hc, hl'⟩ | ⟨opts, hq, hd⟩
      · cases hc
        rw [hl] at hl'
        cases hl'
      · rw [h1] at hq
        simp at hq
        rw [hq, hr] at hd
        cases hd
        rw [h1]

/-- The five ways a call on a non-nil cache can go. -/
theorem GetImageDigestFromRef_cases (env : Env) (remote : Remote) (ctx : Nat)
    (imageRef platform : String) (c : RefCacher) :
    (∃ e, env.ParseReference imageRef = Except.error e ∧
      GetImageDigestFromRef env remote ctx imageRef platform (some c) =
        ⟨Except.error (Error.library e), some c, []⟩) ∨
    (∃ ref, env.ParseReference imageRef = Except.ok ref ∧ ¬ validPlatform platform ∧
      GetImageDigestFromRef env remote ctx imageRef platform (some c) =
        ⟨Except.error (Error.new "platform must be in the format os/arch"), some c, []⟩) ∨
    (∃ ref d, env.ParseReference imageRef = Except.ok ref ∧ validPlatform platform ∧
      c.Load imageRef = some d ∧
      GetImageDigestFromRef env remote ctx imageRef platform (some c) =
        ⟨compareDigest imageRef ref d, some c, [Event.cacheLoad imageRef]⟩) ∨
    (∃ ref e, env.ParseReference imageRef = Except.ok ref ∧ validPlatform platform ∧
      c.Load imageRef = none ∧
      remote ref (remoteOptions env ctx platform) = Except.error e ∧
      GetImageDigestFromRef env remote ctx imageRef platform (some c) =
        ⟨Except.error (Error.library e), some c,
          [Event.cacheLoad imageRef, Event.remoteGet ref (remoteOptions env ctx platform)]⟩) ∨
    (∃ ref d, env.ParseReference imageRef = Except.ok ref ∧ validPlatform platform ∧
      c.Load imageRef = none ∧
      remote ref (remoteOptions env ctx platform) = Except.ok d ∧
      GetImageDigestFromRef env remote ctx imageRef platform (some c) =
        ⟨compareDigest imageRef ref d, some (c.Store imageRef d),
          [Event.cacheLoad imageRef, Event.remoteGet ref (remoteOptions env ctx platform),
           Event.cacheStore imageRef d]⟩) := by
  cases hp : env.ParseReference imageRef with
  | error e =>
    exact Or.inl ⟨e, rfl, GetImageDigestFromRef_parse_error env remote ctx _ _ _ e hp⟩
  | ok ref =>
    by_cases hv : validPlatform platform
    · rcases GetImageDigestFromRef_cached_cases env remote ctx imageRef platform c ref hp hv with
        ⟨d, hl, h1⟩ | ⟨e, hl, hr, h1⟩ | ⟨d, hl, hr, h1⟩
      · exact Or.inr (Or.inr (Or.inl ⟨ref, d, rfl, hv, hl, h1⟩))
      · exact Or.inr (Or.inr (Or.inr (Or.inl ⟨ref, e, rfl, hv, hl, hr, h1⟩)))
      · exact Or.inr (Or.inr (Or.inr (Or.inr ⟨ref, d, rfl, hv, hl, hr, h1⟩)))
    · exact Or.inr (Or.inl ⟨ref, rfl, hv,
        GetImageDigestFromRef_platform_error env remote ctx _ _ _ ref hp hv⟩)

/-! ## The claims -/

/-- C1: for every platform, cache and registry, `Parser.Replace` on the matched text
`FROM scratch` fails with an error that wraps `ErrReferenceSkipped`, performs no operation on
the registry or the cache, and leaves the cache as it was. -/
theorem Replace_FROM_scratch_skipped (env : Env) (remote : Remote) (p : Parser) (ctx : Nat)
    (cfg : Config) :
    (Replace env remote p ctx "FROM scratch" cfg).result =
        Except.error
          (Error.wrap "image reference scratch should be excluded - %w" ErrReferenceSkipped) ∧
      (∃ err, (Replace env remote p ctx "FROM scratch" cfg).result = Except.error err ∧
        err.Is ErrReferenceSkipped = true) ∧
      (Replace env remote p ctx "FROM scratch" cfg).trace = [] ∧
      remoteQueries (Replace env remote p ctx "FROM scratch" cfg).trace = 0 ∧
      (Replace env remote p ctx "FROM scratch" cfg).cache = p.cache := by
  refine ⟨rfl, ⟨_, rfl, ?_⟩, rfl, rfl, rfl⟩
  decide

/-- C2: when `Parser.Replace` succeeds on a matched text that begins with `FROM `, the returned
Prefix starts with `FROM `; when it succeeds on one that begins with `image: `, the Prefix
starts with `image: `; with neither prefix the Prefix is the (empty) one of
`GetImageDigestFromRef`. In the three cases Name, Ref, Tag and Type are the ones
`GetImageDigestFromRef` returned for the text without that prefix. -/
theorem Replace_adds_prefix_back (env : Env) (remote : Remote) (p : Parser) (ctx : Nat)
    (matchedLine : String) (cfg : Config) (e : EntityRef)
    (h : (Replace env remote p ctx matchedLine cfg).result = Except.ok e) :
    (HasPrefix matchedLine prefixFROM = true →
      HasPrefix e.Prefix prefixFROM = true ∧
      ∃ g, (GetImageDigestFromRef env remote ctx (TrimPrefix matchedLine prefixFROM)
              cfg.Platform p.cache).result = Except.ok g ∧
        e.Name = g.Name ∧ e.Ref = g.Ref ∧ e.Tag = g.Tag ∧ e.Typ = g.Typ ∧
        e.Prefix = prefixFROM ++ g.Prefix) ∧
    (HasPrefix matchedLine prefixImage = true →
      HasPrefix e.Prefix prefixImage = true ∧
      ∃ g, (GetImageDigestFromRef env remote ctx (TrimPrefix matchedLine prefixImage)
              cfg.Platform p.cache).result = Except.ok g ∧
        e.Name = g.Name ∧ e.Ref = g.Ref ∧ e.Tag = g.Tag ∧ e.Typ = g.Typ ∧
        e.Prefix = prefixImage ++ g.Prefix) ∧
    (HasPrefix matchedLine prefixFROM = false → HasPrefix matchedLine prefixImage = false →
      (GetImageDigestFromRef env remote ctx matchedLine cfg.Platform p.cache).result =
          Except.ok e ∧
        e.Prefix = "") := by
  rw [Replace_eq] at h
  refine ⟨?_, ?_, ?_⟩
  · intro h1
    by_cases hx : excluded matchedLine = true
    · simp [hx] at h
    · simp only [hx, h1, if_true, if_false, strippedLine] at h
      obtain ⟨g, hg, he⟩ := (addPrefixBack_ok _ _ _).mp h
      subst he
      exact ⟨HasPrefix_append _ _, g, hg, rfl, rfl, rfl, rfl, rfl⟩
  · intro h2
    have h1 := HasPrefix_image_not_FROM matchedLine h2
    have hx : excluded matchedLine = false := by simp [excluded, h1]
    simp only [hx, h1, h2, if_true, if_false, strippedLine, Bool.false_eq_true] at h
    obtain ⟨g, hg, he⟩ := (addPrefixBack_ok _ _ _).mp h
    subst he
    exact ⟨HasPrefix_append _ _, g, hg, rfl, rfl, rfl, rfl, rfl⟩
  · intro h1 h2
    have hx : excluded matchedLine = false := by simp [excluded, h1]
    simp only [hx, h1, h2, if_false, strippedLine, Bool.false_eq_true] at h
    refine ⟨h, ?_⟩
    obtain ⟨ref, d, _, _, hc⟩ := GetImageDigestFromRef_ok _ _ _ _ _ _ _ h
    rw [(compareDigest_ok _ _ _ _ hc).1]

theorem Replace_adds_prefix_back_witness :
    HasPrefix
        ({ Name := "index.docker.io/library/nginx", Ref := "sha256:abc", Typ := "container",
           Tag := "1.21", Prefix := "FROM " } : EntityRef).Prefix prefixFROM = true ∧
      ∃ g, (GetImageDigestFromRef sampleEnv sampleRemote 0 (TrimPrefix "FROM nginx:1.21" prefixFROM)
              "" (some RefCacher.empty)).result = Except.ok g ∧
        "index.docker.io/library/nginx" = g.Name ∧ "sha256:abc" = g.Ref ∧ "1.21" = g.Tag ∧
        "container" = g.Typ ∧ "FROM " = prefixFROM ++ g.Prefix :=
  (Replace_adds_prefix_back sampleEnv sampleRemote ⟨"", some RefCacher.empty⟩ 0
    "FROM nginx:1.21" ⟨""⟩
    { Name := "index.docker.io/library/nginx", Ref := "sha256:abc", Typ := "container",
      Tag := "1.21", Prefix := "FROM " } rfl).1 rfl

/-- C3: `ConvertToEntityRef` on a reference whose trimmed form is `r` returns Type `container`
whenever it succeeds; with neither `@` nor `:` in `r` it returns Name `r` and Ref `latest`;
with exactly one `@` it returns Name and Ref with `r = Name ++ "@" ++ Ref` and no `@` in
either; with no `@` and exactly one `:` it returns Name and Ref with `r = Name ++ ":" ++ Ref`
and no `:` in either. The references `nginx`, `nginx:1.21` and `nginx@sha256:abc` give
(nginx, latest), (nginx, 1.21) and (nginx, sha256:abc). -/
theorem ConvertToEntityRef_decomposes (reference : String) :
    (∀ e, ConvertToEntityRef reference = Except.ok e → e.Typ = "container") ∧
    ((trimmedReference reference).data.count '@' = 0 → (trimmedReference reference).data.count ':' = 0 →
      ConvertToEntityRef reference =
        Except.ok { Name := trimmedReference reference, Ref := "latest", Typ := "container" }) ∧
    ((trimmedReference reference).data.count '@' = 1 →
      ∃ n f, ConvertToEntityRef reference =
          Except.ok { Name := n, Ref := f, Typ := "container" } ∧
        trimmedReference reference = n ++ "@" ++ f ∧ '@' ∉ n.data ∧ '@' ∉ f.data) ∧
    ((trimmedReference reference).data.count '@' = 0 → (trimmedReference reference).data.count ':' = 1 →
      ∃ n f, ConvertToEntityRef reference =
          Except.ok { Name := n, Ref := f, Typ := "container" } ∧
        trimmedReference reference = n ++ ":" ++ f ∧ ':' ∉ n.data ∧ ':' ∉ f.data) ∧
    ConvertToEntityRef "nginx" =
      Except.ok { Name := "nginx", Ref := "latest", Typ := "container" } ∧
    ConvertToEntityRef "nginx:1.21" =
      Except.ok { Name := "nginx", Ref := "1.21", Typ := "container" } ∧
    ConvertToEntityRef "nginx@sha256:abc" =
      Except.ok { Name := "nginx", Ref := "sha256:abc", Typ := "container" } := by
  unfold trimmedReference
  set r := TrimPrefix (TrimPrefix reference prefixImage) prefixFROM with hrdef
  refine ⟨?_, ?_, ?_, ?_, rfl, rfl, rfl⟩
  · intro e he
    by_cases h1 : '@' ∈ r.data
    · rw [ConvertToEntityRef_sep reference '@' (Or.inl ⟨rfl, h1⟩)] at he
      split at he
      · cases he
      · cases he; rfl
    · by_cases h2 : ':' ∈ r.data
      · rw [ConvertToEntityRef_sep reference ':' (Or.inr ⟨rfl, h1, h2⟩)] at he
        split at he
        · cases he
        · cases he; rfl
      · rw [ConvertToEntityRef_no_sep reference h1 h2] at he
        cases he; rfl
  · intro h1 h2
    exact ConvertToEntityRef_no_sep reference (List.count_eq_zero.mp h1)
      (List.count_eq_zero.mp h2)
  · intro h1
    have hm : '@' ∈ r.data := List.count_pos_iff.mp (by omega)
    obtain ⟨a, b, hs, hr, ha, hb⟩ := Split_count_one r '@' h1
    refine ⟨a, b, ?_, hr, ha, hb⟩
    rw [ConvertToEntityRef_sep reference '@' (Or.inl ⟨rfl, hm⟩)]
    simp only [r] at h1 hs
    simp [h1, hs]
  · intro h1 h2
    have hn : '@' ∉ r.data := List.count_eq_zero.mp h1
    have hm : ':' ∈ r.data := List.count_pos_iff.mp (by omega)
    obtain ⟨a, b, hs, hr, ha, hb⟩ := Split_count_one r ':' h2
    refine ⟨a, b, ?_, hr, ha, hb⟩
    rw [ConvertToEntityRef_sep reference ':' (Or.inr ⟨rfl, hn, hm⟩)]
    simp only [r] at h2 hs
    simp [h2, hs]

theorem ConvertToEntityRef_decomposes_witness :
    ConvertToEntityRef "image: nginx" =
        Except.ok { Name := "nginx", Ref := "latest", Typ := "container" } ∧
      (∃ n f, ConvertToEntityRef "FROM nginx@sha256:abc" =
          Except.ok { Name := n, Ref := f, Typ := "container" } ∧
        "nginx@sha256:abc" = n ++ "@" ++ f ∧ '@' ∉ n.data ∧ '@' ∉ f.data) ∧
      (∃ n f, ConvertToEntityRef "nginx:1.21" =
          Except.ok { Name := n, Ref := f, Typ := "container" } ∧
        "nginx:1.21" = n ++ ":" ++ f ∧ ':' ∉ n.data ∧ ':' ∉ f.data) :=
  ⟨(ConvertToEntityRef_decomposes "image: nginx").2.1 (by decide) (by decide),
   (ConvertToEntityRef_decomposes "FROM nginx@sha256:abc").2.2.1 (by decide),
   (ConvertToEntityRef_decomposes "nginx:1.21").2.2.2.1 (by decide) (by decide)⟩

/-- C4: `ConvertToEntityRef` fails exactly when the trimmed reference `r` holds two or more
`@`, or no `@` and two or more `:`; the error is then the invalid-reference error, and in
every other case the call succeeds. The reference `a:b:c` is rejected. -/
theorem ConvertToEntityRef_fails_iff (reference : String) :
    ((∃ err, ConvertToEntityRef reference = Except.error err) ↔
      (2 ≤ (trimmedReference reference).data.count '@' ∨ ((trimmedReference reference).data.count '@' = 0 ∧ 2 ≤ (trimmedReference reference).data.count ':'))) ∧
    (∀ err, ConvertToEntityRef reference = Except.error err →
      err = Error.new ("invalid container reference: " ++ trimmedReference reference)) ∧
    (¬ (2 ≤ (trimmedReference reference).data.count '@' ∨ ((trimmedReference reference).data.count '@' = 0 ∧ 2 ≤ (trimmedReference reference).data.count ':')) →
      ∃ e, ConvertToEntityRef reference = Except.ok e) ∧
    ConvertToEntityRef "a:b:c" =
      Except.error (Error.new "invalid container reference: a:b:c") := by
  unfold trimmedReference
  set r := TrimPrefix (TrimPrefix reference prefixImage) prefixFROM with hrdef
  by_cases h1 : '@' ∈ r.data
  · have hp : 0 < r.data.count '@' := List.count_pos_iff.mpr h1
    have hE := ConvertToEntityRef_sep reference '@' (Or.inl ⟨rfl, h1⟩)
    by_cases hc : r.data.count '@' = 1
    · simp only [r] at hc
      simp only [hc, ne_eq, not_true_eq_false, if_false] at hE
      refine ⟨?_, ?_, ?_, rfl⟩
      · simp [hE, r, hc]
      · intro err he; rw [hE] at he; cases he
      · intro _; exact ⟨_, hE⟩
    · simp only [r] at hc
      simp only [ne_eq, hc, not_false_eq_true, if_true] at hE
      refine ⟨?_, ?_, ?_, rfl⟩
      · simp only [hE, r]
        constructor
        · intro _; left; simp only [r] at hp; omega
        · intro _; exact ⟨_, rfl⟩
      · intro err he; rw [hE] at he; cases he; rfl
      · intro hn; exfalso; apply hn; left; simp only [r] at hp ⊢; omega
  · have hz : r.data.count '@' = 0 := List.count_eq_zero.mpr h1
    by_cases h2 : ':' ∈ r.data
    · have hp : 0 < r.data.count ':' := List.count_pos_iff.mpr h2
      have hE := ConvertToEntityRef_sep reference ':' (Or.inr ⟨rfl, h1, h2⟩)
      by_cases hc : r.data.count ':' = 1
      · simp only [r] at hc hz
        simp only [hc, ne_eq, not_true_eq_false, if_false] at hE
        refine ⟨?_, ?_, ?_, rfl⟩
        · simp [hE, r, hc, hz]
        · intro err he; rw [hE] at he; cases he
        · intro _; exact ⟨_, hE⟩
      · simp only [r] at hc hz
        simp only [ne_eq, hc, not_false_eq_true, if_true] at hE
        refine ⟨?_, ?_, ?_, rfl⟩
        · simp only [hE, r]
          constructor
          · intro _; right; simp only [r] at hp; omega
          · intro _; exact ⟨_, rfl⟩
        · intro err he; rw [hE] at he; cases he; rfl
        · intro hn; exfalso; apply hn; right; simp only [r] at hp ⊢; omega
    · have hz2 : r.data.count ':' = 0 := List.count_eq_zero.mpr h2
      have hE := ConvertToEntityRef_no_sep reference h1 h2
      simp only [r] at hz hz2
      refine ⟨?_, ?_, ?_, rfl⟩
      · simp [hE, r, hz, hz2]
      · intro err he; rw [hE] at he; cases he
      · intro _; exact ⟨_, hE⟩

theorem ConvertToEntityRef_fails_iff_witness :
    ∃ e, ConvertToEntityRef "FROM nginx@sha256:abc" = Except.ok e :=
  (ConvertToEntityRef_fails_iff "FROM nginx@sha256:abc").2.2.1 (by decide)

/-- C5: for a reference the parser accepts, `GetImageDigestFromRef` fails with the
platform-format error exactly when the platform is non-empty and does not hold exactly one
`/`; it has then queried nothing and has not touched the cache, whatever the cache holds.
Hence `Parser.Replace` on a matched text that is not excluded, with such a platform, fails
with the parser's error or with the platform error, with no operation performed. -/
theorem platform_error_before_any_query (env : Env) (remote : Remote) (ctx : Nat) :
    (∀ (imageRef platform : String) (cache : Option RefCacher) (ref : Reference),
      env.ParseReference imageRef = Except.ok ref →
      (((GetImageDigestFromRef env remote ctx imageRef platform cache).result =
            Except.error (Error.new "platform must be in the format os/arch") ↔
          (platform ≠ "" ∧ platform.data.count '/' ≠ 1)) ∧
        ((platform ≠ "" ∧ platform.data.count '/' ≠ 1) →
          (GetImageDigestFromRef env remote ctx imageRef platform cache).trace = [] ∧
          (GetImageDigestFromRef env remote ctx imageRef platform cache).cache = cache))) ∧
    (∀ (p : Parser) (matchedLine : String) (cfg : Config),
      (cfg.Platform ≠ "" ∧ cfg.Platform.data.count '/' ≠ 1) →
      excluded matchedLine = false →
      ((∃ e, env.ParseReference (strippedLine matchedLine) = Except.error e ∧
            (Replace env remote p ctx matchedLine cfg).result =
              Except.error (Error.library e)) ∨
          (∃ ref, env.ParseReference (strippedLine matchedLine) = Except.ok ref ∧
            (Replace env remote p ctx matchedLine cfg).result =
              Except.error (Error.new "platform must be in the format os/arch"))) ∧
        (Replace env remote p ctx matchedLine cfg).trace = [] ∧
        remoteQueries (Replace env remote p ctx matchedLine cfg).trace = 0 ∧
        (Replace env remote p ctx matchedLine cfg).cache = p.cache) ∧
    ¬ validPlatform "linux" ∧ ¬ validPlatform "linux/amd64/v8" ∧ validPlatform "linux/amd64" := by
  refine ⟨?_, ?_, by decide, by decide, by decide⟩
  · intro imageRef platform cache ref hp
    by_cases hv : validPlatform platform
    · have hn : ¬ (platform ≠ "" ∧ platform.data.count '/' ≠ 1) := by
        rcases hv with h | h
        · simp [h]
        · simp [h]
      refine ⟨⟨?_, fun h => absurd h hn⟩, fun h => absurd h hn⟩
      intro h
      exfalso
      rw [GetImageDigestFromRef_valid env remote ctx imageRef platform cache ref hp hv] at h
      have hcd : ∀ d, compareDigest imageRef ref d ≠
          Except.error (Error.new "platform must be in the format os/arch") := by
        intro d hd
        unfold compareDigest at hd
        split at hd <;> cases hd
      cases cache with
      | none =>
        simp only at h
        split at h
        · cases h
        · exact hcd _ h
      | some c =>
        simp only at h
        split at h
        · exact hcd _ h
        · split at h
          · cases h
          · exact hcd _ h
    · have hb : platform ≠ "" ∧ platform.data.count '/' ≠ 1 := by
        simpa [validPlatform, not_or] using hv
      rw [GetImageDigestFromRef_platform_error env remote ctx imageRef platform cache ref hp hv]
      exact ⟨⟨fun _ => hb, fun _ => rfl⟩, fun _ => ⟨rfl, rfl⟩⟩
  · intro p matchedLine cfg hb hx
    have hv : ¬ validPlatform cfg.Platform := by
      simpa [validPlatform, not_or] using hb
    have key : ∀ o : Outcome,
        o = GetImageDigestFromRef env remote ctx (strippedLine matchedLine) cfg.Platform p.cache →
        ((∃ e, env.ParseReference (strippedLine matchedLine) = Except.error e ∧
              o.result = Except.error (Error.library e)) ∨
          (∃ ref, env.ParseReference (strippedLine matchedLine) = Except.ok ref ∧
              o.result = Except.error (Error.new "platform must be in the format os/arch"))) ∧
          o.trace = [] ∧ o.cache = p.cache := by
      intro o ho
      cases hp : env.ParseReference (strippedLine matchedLine) with
      | error e =>
        rw [GetImageDigestFromRef_parse_error env remote ctx _ _ _ e hp] at ho
        subst ho
        exact ⟨Or.inl ⟨e, rfl, rfl⟩, rfl, rfl⟩
      | ok ref =>
        rw [GetImageDigestFromRef_platform_error env remote ctx _ _ _ ref hp hv] at ho
        subst ho
        exact ⟨Or.inr ⟨ref, rfl, rfl⟩, rfl, rfl⟩
    obtain ⟨kr, kt, kc⟩ := key _ rfl
    obtain ⟨rt, rc, re, _⟩ := Replace_not_excluded env remote p ctx matchedLine cfg hx
    rw [rt, rc, kt, kc]
    refine ⟨?_, rfl, rfl, rfl⟩
    rcases kr with ⟨e, he, hr⟩ | ⟨ref, he, hr⟩
    · exact Or.inl ⟨e, he, (re _).mpr hr⟩
    · exact Or.inr ⟨ref, he, (re _).mpr hr⟩

theorem platform_error_before_any_query_witness :
    ((∃ e, sampleEnv.ParseReference (strippedLine "image: nginx") = Except.error e ∧
          (Replace sampleEnv sampleRemote ⟨"", some RefCacher.empty⟩ 0 "image: nginx"
            ⟨"linux/amd64/v8"⟩).result = Except.error (Error.library e)) ∨
        (∃ ref, sampleEnv.ParseReference (strippedLine "image: nginx") = Except.ok ref ∧
          (Replace sampleEnv sampleRemote ⟨"", some RefCacher.empty⟩ 0 "image: nginx"
            ⟨"linux/amd64/v8"⟩).result =
              Except.error (Error.new "platform must be in the format os/arch"))) ∧
      (Replace sampleEnv sampleRemote ⟨"", some RefCacher.empty⟩ 0 "image: nginx"
        ⟨"linux/amd64/v8"⟩).trace = [] ∧
      remoteQueries (Replace sampleEnv sampleRemote ⟨"", some RefCacher.empty⟩ 0 "image: nginx"
        ⟨"linux/amd64/v8"⟩).trace = 0 ∧
      (Replace sampleEnv sampleRemote ⟨"", some RefCacher.empty⟩ 0 "image: nginx"
        ⟨"linux/amd64/v8"⟩).cache = some RefCacher.empty :=
  (platform_error_before_any_query sampleEnv sampleRemote 0).2.1
    ⟨"", some RefCacher.empty⟩ "image: nginx" ⟨"linux/amd64/v8"⟩ (by decide) (by decide)

/-- C6: when a first call on a non-nil cache obtains the digest of a parsed reference from the
registry, a second call for the same reference on the cache the first call left, with any
well-formed platform and any registry behaviour, queries the registry zero times and returns
the result of the first call, built from the same digest. -/
theorem second_call_served_from_cache (env : Env) (remote1 remote2 : Remote) (ctx1 ctx2 : Nat)
    (imageRef p1 p2 : String) (c : RefCacher) (ref : Reference) (opts : List RemoteOption)
    (d : String)
    (hparse : env.ParseReference imageRef = Except.ok ref)
    (hv1 : validPlatform p1) (hv2 : validPlatform p2)
    (hq : Event.remoteGet ref opts ∈
      (GetImageDigestFromRef env remote1 ctx1 imageRef p1 (some c)).trace)
    (hd : remote1 ref opts = Except.ok d) :
    remoteQueries (GetImageDigestFromRef env remote2 ctx2 imageRef p2
        (GetImageDigestFromRef env remote1 ctx1 imageRef p1 (some c)).cache).trace = 0 ∧
      (GetImageDigestFromRef env remote2 ctx2 imageRef p2
        (GetImageDigestFromRef env remote1 ctx1 imageRef p1 (some c)).cache).result =
        (GetImageDigestFromRef env remote1 ctx1 imageRef p1 (some c)).result ∧
      (GetImageDigestFromRef env remote2 ctx2 imageRef p2
        (GetImageDigestFromRef env remote1 ctx1 imageRef p1 (some c)).cache).result =
        compareDigest imageRef ref d ∧
      (∀ e, (GetImageDigestFromRef env remote1 ctx1 imageRef p1 (some c)).result = Except.ok e →
        e.Ref = d) ∧
      (GetImageDigestFromRef env remote2 ctx2 imageRef p2
        (GetImageDigestFromRef env remote1 ctx1 imageRef p1 (some c)).cache).cache =
        (GetImageDigestFromRef env remote1 ctx1 imageRef p1 (some c)).cache := by
  rcases GetImageDigestFromRef_cached_cases env remote1 ctx1 imageRef p1 c ref hparse hv1 with
    ⟨d', _, h1⟩ | ⟨e, _, hr, h1⟩ | ⟨d', _, hr, h1⟩
  · rw [h1] at hq
    simp at hq
  · rw [h1] at hq
    simp at hq
    rw [hq, hr] at hd
    cases hd
  · rw [h1] at hq
    simp at hq
    rw [hq, hr] at hd
    cases hd
    rw [h1]
    rcases GetImageDigestFromRef_cached_cases env remote2 ctx2 imageRef p2
        (c.Store imageRef d) ref hparse hv2 with
      ⟨d2, hl, h2⟩ | ⟨e, hl, _, _⟩ | ⟨d2, hl, _, _⟩
    · rw [Load_Store_same] at hl
      cases hl
      rw [h2]
      refine ⟨by simp [remoteQueries, Event.isRemote], rfl, rfl, ?_, rfl⟩
      intro e he
      rw [(compareDigest_ok _ _ _ _ he).1]
    · rw [Load_Store_same] at hl
      cases hl
    · rw [Load_Store_same] at hl
      cases hl

theorem second_call_served_from_cache_witness :
    remoteQueries (GetImageDigestFromRef sampleEnv failingRemote 1 "nginx:1.21" "linux/arm64"
        (GetImageDigestFromRef sampleEnv sampleRemote 0 "nginx:1.21" "linux/amd64"
          (some RefCacher.empty)).cache).trace = 0 ∧
      (GetImageDigestFromRef sampleEnv failingRemote 1 "nginx:1.21" "linux/arm64"
        (GetImageDigestFromRef sampleEnv sampleRemote 0 "nginx:1.21" "linux/amd64"
          (some RefCacher.empty)).cache).result =
        (GetImageDigestFromRef sampleEnv sampleRemote 0 "nginx:1.21" "linux/amd64"
          (some RefCacher.empty)).result ∧
      (GetImageDigestFromRef sampleEnv failingRemote 1 "nginx:1.21" "linux/arm64"
        (GetImageDigestFromRef sampleEnv sampleRemote 0 "nginx:1.21" "linux/amd64"
          (some RefCacher.empty)).cache).result =
        compareDigest "nginx:1.21" ⟨"index.docker.io/library/nginx", "1.21"⟩ "sha256:abc" ∧
      (∀ e, (GetImageDigestFromRef sampleEnv sampleRemote 0 "nginx:1.21" "linux/amd64"
          (some RefCacher.empty)).result = Except.ok e → e.Ref = "sha256:abc") ∧
      (GetImageDigestFromRef sampleEnv failingRemote 1 "nginx:1.21" "linux/arm64"
        (GetImageDigestFromRef sampleEnv sampleRemote 0 "nginx:1.21" "linux/amd64"
          (some RefCacher.empty)).cache).cache =
        (GetImageDigestFromRef sampleEnv sampleRemote 0 "nginx:1.21" "linux/amd64"
          (some RefCacher.empty)).cache :=
  second_call_served_from_cache sampleEnv sampleRemote failingRemote 0 1 "nginx:1.21"
    "linux/amd64" "linux/arm64" RefCacher.empty ⟨"index.docker.io/library/nginx", "1.21"⟩
    (remoteOptions sampleEnv 0 "linux/amd64") "sha256:abc" rfl (by decide) (by decide)
    (by decide) rfl

/-- C7: for a reference that parses and a well-formed platform, when the digest obtained from
the cache or from the registry equals the identifier of the parsed reference,
`GetImageDigestFromRef` fails with an error that wraps `ErrReferenceSkipped`; when it differs,
the call succeeds. Hence every EntityRef that `GetImageDigestFromRef` or `Parser.Replace`
returns has `Ref ≠ Tag`. -/
theorem skipped_when_digest_is_identifier (env : Env) (remote : Remote) (ctx : Nat) :
    (∀ (imageRef platform : String) (cache : Option RefCacher) (ref : Reference) (d : String),
      env.ParseReference imageRef = Except.ok ref → validPlatform platform →
      ((∃ c, cache = some c ∧ c.Load imageRef = some d) ∨
        (∃ opts, Event.remoteGet ref opts ∈
            (GetImageDigestFromRef env remote ctx imageRef platform cache).trace ∧
          remote ref opts = Except.ok d)) →
      (d = ref.identifier →
        ∃ err, (GetImageDigestFromRef env remote ctx imageRef platform cache).result =
            Except.error err ∧ err.Is ErrReferenceSkipped = true) ∧
      (d ≠ ref.identifier →
        (GetImageDigestFromRef env remote ctx imageRef platform cache).result =
          Except.ok { Name := ref.contextName, Ref := d, Typ := ReferenceType,
                      Tag := ref.identifier })) ∧
    (∀ (imageRef platform : String) (cache : Option RefCacher) (e : EntityRef),
      (GetImageDigestFromRef env remote ctx imageRef platform cache).result = Except.ok e →
      e.Ref ≠ e.Tag) ∧
    (∀ (p : Parser) (matchedLine : String) (cfg : Config) (e : EntityRef),
      (Replace env remote p ctx matchedLine cfg).result = Except.ok e → e.Ref ≠ e.Tag) := by
  have hG : ∀ (imageRef platform : String) (cache : Option RefCacher) (e : EntityRef),
      (GetImageDigestFromRef env remote ctx imageRef platform cache).result = Except.ok e →
      e.Ref ≠ e.Tag := by
    intro imageRef platform cache e he
    obtain ⟨ref, d, _, _, hc⟩ := GetImageDigestFromRef_ok _ _ _ _ _ _ _ he
    obtain ⟨h1, h2⟩ := compareDigest_ok _ _ _ _ hc
    rw [h1]
    exact h2
  refine ⟨?_, hG, ?_⟩
  · intro imageRef platform cache ref d hp hv ho
    have hr := GetImageDigestFromRef_result_of_obtained env remote ctx imageRef platform cache
      ref d hp hv ho
    constructor
    · intro hd
      rw [hr, hd, compareDigest_eq]
      exact ⟨_, rfl, wrap_skipped_Is _⟩
    · intro hd
      rw [hr, compareDigest_ne _ _ _ hd]
  · intro p matchedLine cfg e he
    by_cases hx : excluded matchedLine = true
    · rw [Replace_eq] at he
      simp [hx] at he
    · have hx' : excluded matchedLine = false := by simpa using hx
      obtain ⟨_, _, _, hok⟩ := Replace_not_excluded env remote p ctx matchedLine cfg hx'
      obtain ⟨g, pre, hg, hgg⟩ := hok e he
      have := hG _ _ _ _ hg
      rw [hgg]
      exact this

theorem skipped_when_digest_is_identifier_witness :
    (∃ err, (GetImageDigestFromRef sampleEnv sampleRemote 0 "nginx@sha256:abc" "linux/amd64"
        none).result = Except.error err ∧ err.Is ErrReferenceSkipped = true) ∧
      (GetImageDigestFromRef sampleEnv failingRemote 0 "nginx:1.21" ""
        (some (RefCacher.empty.Store "nginx:1.21" "sha256:abc"))).result =
          Except.ok { Name := "index.docker.io/library/nginx", Ref := "sha256:abc",
                      Typ := ReferenceType, Tag := "1.21" } :=
  ⟨((skipped_when_digest_is_identifier sampleEnv sampleRemote 0).1 "nginx@sha256:abc"
      "linux/amd64" none ⟨"index.docker.io/library/nginx", "sha256:abc"⟩ "sha256:abc" rfl
      (by decide) (Or.inr ⟨remoteOptions sampleEnv 0 "linux/amd64", by decide, rfl⟩)).1 rfl,
   ((skipped_when_digest_is_identifier sampleEnv failingRemote 0).1 "nginx:1.21" ""
      (some (RefCacher.empty.Store "nginx:1.21" "sha256:abc"))
      ⟨"index.docker.io/library/nginx", "1.21"⟩ "sha256:abc" rfl (by decide)
      (Or.inl ⟨_, rfl, rfl⟩)).2 (by decide)⟩

/-- C8 (the code at the failing input): `Parser.Replace` on the matched text
`image: "nginx"` strips the prefix only, so the reference it hands on keeps both quote
characters; with a parser that rejects the quoted text, the quoted and the unquoted line end
differently. -/
theorem Replace_keeps_quotes (env : Env) (remote : Remote) (p : Parser) (ctx : Nat)
    (cfg : Config) :
    Replace env remote p ctx "image: \"nginx\"" cfg =
        addPrefixBack prefixImage
          (GetImageDigestFromRef env remote ctx "\"nginx\"" cfg.Platform p.cache) ∧
      Replace env remote p ctx "image: nginx" cfg =
        addPrefixBack prefixImage
          (GetImageDigestFromRef env remote ctx "nginx" cfg.Platform p.cache) ∧
      (Replace sampleEnv sampleRemote ⟨"", some RefCacher.empty⟩ 0 "image: nginx" ⟨""⟩).result =
        Except.ok { Name := "index.docker.io/library/nginx", Ref := "sha256:abc",
                    Typ := "container", Tag := "latest", Prefix := "image: " } ∧
      (Replace sampleEnv sampleRemote ⟨"", some RefCacher.empty⟩ 0 "image: \"nginx\""
          ⟨""⟩).result =
        Except.error (Error.library "could not parse reference: \"nginx\"") :=
  ⟨rfl, rfl, rfl, rfl⟩

/-- C9 (counterexample): `ConvertToEntityRef` succeeds on `:1.21` with an empty Name, so it
is not true that every successful result has a non-empty Name. -/
theorem ConvertToEntityRef_empty_name :
    ¬ ∀ reference e, ConvertToEntityRef reference = Except.ok e → e.Name ≠ "" := by
  intro h
  exact h ":1.21" { Name := "", Ref := "1.21", Typ := "container" } rfl rfl

/-- C9 (amended): when `ConvertToEntityRef` succeeds, the returned Name is empty exactly when
the trimmed reference is empty, begins with `@`, or holds no `@` and begins with `:`; in every
other case the Name is non-empty. -/
theorem ConvertToEntityRef_name_empty_iff (reference : String) (e : EntityRef)
    (h : ConvertToEntityRef reference = Except.ok e) :
    (e.Name = "" ↔
      (trimmedReference reference = "" ∨ HasPrefix (trimmedReference reference) "@" = true ∨ ('@' ∉ (trimmedReference reference).data ∧ HasPrefix (trimmedReference reference) ":" = true))) := by
  unfold trimmedReference
  set r := TrimPrefix (TrimPrefix reference prefixImage) prefixFROM with hrdef
  by_cases h1 : '@' ∈ r.data
  · have hE := ConvertToEntityRef_sep reference '@' (Or.inl ⟨rfl, h1⟩)
    rw [hE] at h
    split at h
    · cases h
    · rename_i hc
      simp only [ne_eq, not_not] at hc
      obtain ⟨a, b, hs, hr, ha, hb⟩ := Split_count_one r '@' hc
      simp only [r] at hs
      rw [hs] at h
      cases h
      have hk := HasPrefix_singleton_append a b '@' ha
      rw [← hr] at hk
      have hne : r ≠ "" := by
        intro h0; rw [h0] at h1; simp at h1
      simp only [List.getD_cons_zero]
      constructor
      · intro h0; right; left; exact hk.mp h0
      · rintro (h0 | h0 | ⟨h0, _⟩)
        · exact absurd h0 hne
        · exact hk.mpr h0
        · exact absurd h1 h0
  · by_cases h2 : ':' ∈ r.data
    · have hE := ConvertToEntityRef_sep reference ':' (Or.inr ⟨rfl, h1, h2⟩)
      rw [hE] at h
      split at h
      · cases h
      · rename_i hc
        simp only [ne_eq, not_not] at hc
        obtain ⟨a, b, hs, hr, ha, hb⟩ := Split_count_one r ':' hc
        simp only [r] at hs
        rw [hs] at h
        cases h
        have hk := HasPrefix_singleton_append a b ':' ha
        rw [← hr] at hk
        have hne : r ≠ "" := by
          intro h0; rw [h0] at h2; simp at h2
        have hat : HasPrefix r "@" = false := HasPrefix_singleton_of_not_mem r '@' h1
        simp only [List.getD_cons_zero]
        constructor
        · intro h0; right; right; exact ⟨h1, hk.mp h0⟩
        · rintro (h0 | h0 | ⟨_, h0⟩)
          · exact absurd h0 hne
          · rw [hat] at h0; cases h0
          · exact hk.mpr h0
    · rw [ConvertToEntityRef_no_sep reference h1 h2] at h
      cases h
      have hnp := HasPrefix_singleton_of_not_mem r
      have hat := hnp '@' h1
      have hco := hnp ':' h2
      constructor
      · intro h0; left; exact h0
      · rintro (h0 | h0 | ⟨_, h0⟩)
        · exact h0
        · rw [show ("@" : String) = String.singleton '@' from rfl, hat] at h0; cases h0
        · rw [show (":" : String) = String.singleton ':' from rfl, hco] at h0; cases h0

theorem ConvertToEntityRef_name_empty_iff_witness :
    (("" : String) = "" ↔
      ((":1.21" : String) = "" ∨ HasPrefix ":1.21" "@" = true ∨
        ('@' ∉ (":1.21" : String).data ∧ HasPrefix ":1.21" ":" = true))) :=
  ConvertToEntityRef_name_empty_iff ":1.21" { Name := "", Ref := "1.21", Typ := "container" } rfl

/-- C10: one call of `GetImageDigestFromRef` on a non-nil cache. When the reference string is
not in the cache and the registry answers the query with a digest, the cache afterwards maps
that reference string to the digest and every other key as before, whatever the call then
returns. In every other case (a hit, a parse error, a platform error, a registry error, which
is returned as it is) the cache is as it was. No entry is removed or overwritten. Through
`Parser.Replace` the reference string is the matched text without its prefix. -/
theorem cache_effect_of_one_call (env : Env) (remote : Remote) (ctx : Nat)
    (imageRef platform : String) (c : RefCacher) :
    (∀ ref opts d, c.Load imageRef = none →
      Event.remoteGet ref opts ∈
        (GetImageDigestFromRef env remote ctx imageRef platform (some c)).trace →
      remote ref opts = Except.ok d →
      (GetImageDigestFromRef env remote ctx imageRef platform (some c)).cache =
          some (c.Store imageRef d) ∧
        (c.Store imageRef d).Load imageRef = some d ∧
        ∀ k, k ≠ imageRef → (c.Store imageRef d).Load k = c.Load k) ∧
    (∀ d, c.Load imageRef = some d →
      (GetImageDigestFromRef env remote ctx imageRef platform (some c)).cache = some c) ∧
    (∀ e, env.ParseReference imageRef = Except.error e →
      (GetImageDigestFromRef env remote ctx imageRef platform (some c)).cache = some c) ∧
    (¬ validPlatform platform →
      (GetImageDigestFromRef env remote ctx imageRef platform (some c)).cache = some c) ∧
    (∀ ref opts e,
      Event.remoteGet ref opts ∈
        (GetImageDigestFromRef env remote ctx imageRef platform (some c)).trace →
      remote ref opts = Except.error e →
      (GetImageDigestFromRef env remote ctx imageRef platform (some c)).cache = some c ∧
        (GetImageDigestFromRef env remote ctx imageRef platform (some c)).result =
          Except.error (Error.library e)) ∧
    ((∃ ref opts d, c.Load imageRef = none ∧
        Event.remoteGet ref opts ∈
          (GetImageDigestFromRef env remote ctx imageRef platform (some c)).trace ∧
        remote ref opts = Except.ok d) ∨
      (GetImageDigestFromRef env remote ctx imageRef platform (some c)).cache = some c) ∧
    (∀ k v, c.Load k = some v →
      ∃ c', (GetImageDigestFromRef env remote ctx imageRef platform (some c)).cache = some c' ∧
        c'.Load k = some v) ∧
    (∀ (p : Parser) (matchedLine : String) (cfg : Config),
      (excluded matchedLine = true →
        (Replace env remote p ctx matchedLine cfg).cache = p.cache) ∧
      (excluded matchedLine = false →
        (Replace env remote p ctx matchedLine cfg).cache =
          (GetImageDigestFromRef env remote ctx (strippedLine matchedLine) cfg.Platform
            p.cache).cache)) := by
  have hRep : ∀ (p : Parser) (matchedLine : String) (cfg : Config),
      (excluded matchedLine = true →
        (Replace env remote p ctx matchedLine cfg).cache = p.cache) ∧
      (excluded matchedLine = false →
        (Replace env remote p ctx matchedLine cfg).cache =
          (GetImageDigestFromRef env remote ctx (strippedLine matchedLine) cfg.Platform
            p.cache).cache) := by
    intro p matchedLine cfg
    constructor
    · intro hx
      rw [Replace_eq]
      simp [hx]
    · intro hx
      exact (Replace_not_excluded env remote p ctx matchedLine cfg hx).2.1
  rcases GetImageDigestFromRef_cases env remote ctx imageRef platform c with
    ⟨e, hp, h1⟩ | ⟨ref, hp, hv, h1⟩ | ⟨ref, d, hp, hv, hl, h1⟩ | ⟨ref, e, hp, hv, hl, hr, h1⟩ |
    ⟨ref, d, hp, hv, hl, hr, h1⟩
  · rw [h1]
    refine ⟨?_, fun _ _ => rfl, fun _ _ => rfl, fun _ => rfl, ?_, Or.inr rfl,
      fun k v hk => ⟨c, rfl, hk⟩, hRep⟩
    · intro ref opts d _ hq; simp at hq
    · intro ref opts e' hq; simp at hq
  · rw [h1]
    refine ⟨?_, fun _ _ => rfl, fun _ _ => rfl, fun _ => rfl, ?_, Or.inr rfl,
      fun k v hk => ⟨c, rfl, hk⟩, hRep⟩
    · intro ref opts d _ hq; simp at hq
    · intro ref opts e' hq; simp at hq
  · rw [h1]
    refine ⟨?_, fun _ _ => rfl, fun _ _ => rfl, fun _ => rfl, ?_, Or.inr rfl,
      fun k v hk => ⟨c, rfl, hk⟩, hRep⟩
    · intro ref opts d _ hq; simp at hq
    · intro ref opts e' hq; simp at hq
  · rw [h1]
    refine ⟨?_, fun _ _ => rfl, fun _ _ => rfl, fun _ => rfl, ?_, Or.inr rfl,
      fun k v hk => ⟨c, rfl, hk⟩, hRep⟩
    · intro ref' opts d _ hq hd
      simp at hq
      rw [hq.1, hq.2, hr] at hd
      cases hd
    · intro ref' opts e' hq he
      simp at hq
      rw [hq.1, hq.2, hr] at he
      cases he
      exact ⟨rfl, rfl⟩
  · rw [h1]
    refine ⟨?_, ?_, ?_, ?_, ?_, Or.inl ⟨ref, _, d, hl, by simp, hr⟩, ?_, hRep⟩
    · intro ref' opts d' _ hq hd
      simp at hq
      rw [hq.1, hq.2, hr] at hd
      cases hd
      exact ⟨rfl, Load_Store_same _ _ _, fun k hk => Load_Store_other _ _ _ _ hk⟩
    · intro d' hd'
      rw [hl] at hd'
      cases hd'
    · intro e he
      rw [hp] at he
      cases he
    · intro hn
      exact absurd hv hn
    · intro ref' opts e' hq he
      simp at hq
      rw [hq.1, hq.2, hr] at he
      cases he
    · intro k v hk
      refine ⟨_, rfl, ?_⟩
      by_cases hkk : k = imageRef
      · rw [hkk, hl] at hk
        cases hk
      · rw [Load_Store_other _ _ _ _ hkk]
        exact hk

theorem cache_effect_of_one_call_witness :
    (GetImageDigestFromRef sampleEnv sampleRemote 0 "nginx@sha256:abc" "" (some RefCacher.empty)).cache =
        some (RefCacher.empty.Store "nginx@sha256:abc" "sha256:abc") ∧
      (RefCacher.empty.Store "nginx@sha256:abc" "sha256:abc").Load "nginx@sha256:abc" =
        some "sha256:abc" ∧
      ∀ k, k ≠ "nginx@sha256:abc" →
        (RefCacher.empty.Store "nginx@sha256:abc" "sha256:abc").Load k = RefCacher.empty.Load k :=
  (cache_effect_of_one_call sampleEnv sampleRemote 0 "nginx@sha256:abc" "" RefCacher.empty).1
    ⟨"index.docker.io/library/nginx", "sha256:abc"⟩ (remoteOptions sampleEnv 0 "") "sha256:abc"
    rfl (by decide) rfl

end Frizbee
